import Mathlib

set_option maxRecDepth 100000

/-!
Verification of the dynamic schema-normalization pipeline
(`src/utils.py`, `src/dynamic_normalization_pipeline.py`,
`src/normalization_pipeline.py`).

Cells of a loaded table are modelled as `Option Val`: `none` is a
null/NaN entry, `some v` a concrete value.  Pandas floats are modelled
as exact rationals (the code only ever asks whether a float is
integer-valued and for min/max bounds, which the rational model
captures exactly); the float FK-match threshold comparison is likewise
modelled over `ℚ`.
-/

namespace Text2Sql

/-- A concrete (non-null) cell value of a loaded table. -/
inductive Val where
  | vBool : Bool → Val
  | vInt  : Int → Val
  | vRat  : ℚ → Val
  | vStr  : String → Val
deriving DecidableEq, Repr

/-- A table cell: `none` models a null/NaN entry. -/
abbrev Cell := Option Val

/-- A table in column-major form: column names in their original
order, each paired with its cells (all columns have the same length
in a well-formed table). -/
abbrev Columns := List (String × List Cell)

/-- Lookup by first component, mirroring Python `dict` access /
`dict.get` on insertion-ordered keys. -/
def lookup? {α : Type} (l : List (String × α)) (k : String) : Option α :=
  (l.find? (fun p => p.1 = k)).map Prod.snd

/-- `series.dropna()`: the non-null values of a column, in order. -/
def dropna (col : List Cell) : List Val := col.filterMap id

def isBoolV : Val → Bool
  | .vBool _ => true
  | _ => false

def isIntV : Val → Bool
  | .vInt _ => true
  | _ => false

def isNumV : Val → Bool
  | .vInt _ => true
  | .vRat _ => true
  | _ => false

def isStrV : Val → Bool
  | .vStr _ => true
  | _ => false

/-- Pandas dtype classification of a column, as consumed by
`infer_sql_type`'s `is_bool_dtype` / `is_integer_dtype` /
`is_float_dtype` tests (dtype is a property of the whole series and
survives `dropna`): an all-bool column with no nulls is `bool`; an
all-int column with no nulls is `int64`; a numeric column that
contains a float or a NaN is `float64`; everything else is `object`. -/
inductive Dtype where
  | bool | int | float | obj
deriving DecidableEq, Repr

def dtypeOf (col : List Cell) : Dtype :=
  let vals := dropna col
  if vals.all isBoolV && col.all Option.isSome then .bool
  else if vals.all isIntV && col.all Option.isSome then .int
  else if vals.all isNumV then .float
  else .obj

/-- The integer reading of a numeric value (`int(s.min())` etc.);
for an integer-valued rational this is its numerator.  Non-numeric
values never reach this function in `infer_sql_type`. -/
def toIntVal : Val → Int
  | .vInt n => n
  | .vRat q => q.num
  | .vBool b => if b then 1 else 0
  | .vStr _ => 0

/-- `is_int_like` (src/utils.py lines 11-17) restricted to the
float-dtype case: every value has zero fractional part. -/
def intLikeVals (s : List Val) : Bool :=
  s.all fun v =>
    match v with
    | .vInt _ => true
    | .vRat q => q.den = 1
    | _ => false

/-- The INTEGER/BIGINT range split of `infer_sql_type`
(src/utils.py lines 26-32): INTEGER iff `-(2**31) <= vmin` and
`vmax < 2**31`. -/
def intRange (s : List Val) : String :=
  let vs := s.map toIntVal
  let vmin := vs.foldl min (vs.headD 0)
  let vmax := vs.foldl max (vs.headD 0)
  if -(2 ^ 31) ≤ vmin ∧ vmax < 2 ^ 31 then "INTEGER" else "BIGINT"

/-! ### Timestamp parsing model

`infer_sql_type` delegates timestamp parsing to
`pd.to_datetime(s, errors="coerce")`.  Modelled from library
behavior: a timestamp is nanoseconds on an abstract axis (the exact
epoch is irrelevant; only the time-of-day component matters to the
code, which tests `dt.dt.time == midnight`).  The model parses the
formats exercised in this development — ISO `YYYY-MM-DD` dates with
an optional `HH:MM[:SS]` time, `D Mon YYYY` day-first dates, and raw
integers (interpreted by pandas as epoch nanoseconds) — and maps
every other value to `none` (pandas `NaT`). -/

def nsPerDay : Int := 86400 * 1000000000

/-- Split a character list on a separator character (the splitting
model behind `"a-b".split`-style tokenization of date strings). -/
def splitOnC (sep : Char) : List Char → List (List Char)
  | [] => [[]]
  | c :: rest =>
    match splitOnC sep rest with
    | [] => if c = sep then [[], []] else [[c]]
    | h :: t => if c = sep then [] :: h :: t else (c :: h) :: t

def natOfDigits (l : List Char) : Nat :=
  l.foldl (fun n c => n * 10 + (c.toNat - 48)) 0

/-- All-digit token to `Nat` (`none` on empty or non-digit input). -/
def digits? (l : List Char) : Option Nat :=
  if l ≠ [] ∧ l.all Char.isDigit then some (natOfDigits l) else none

def monthNum (m : List Char) : Option Nat :=
  if m = "Jan".data then some 1 else if m = "Feb".data then some 2
  else if m = "Mar".data then some 3 else if m = "Apr".data then some 4
  else if m = "May".data then some 5 else if m = "Jun".data then some 6
  else if m = "Jul".data then some 7 else if m = "Aug".data then some 8
  else if m = "Sep".data then some 9 else if m = "Oct".data then some 10
  else if m = "Nov".data then some 11 else if m = "Dec".data then some 12
  else none

/-- `YYYY-MM-DD` (4-digit year, month 1..12, day 1..31). -/
def parseDatePart (s : List Char) : Option (Nat × Nat × Nat) :=
  match splitOnC '-' s with
  | [y, m, d] =>
    match digits? y, digits? m, digits? d with
    | some yn, some mn, some dn =>
      if y.length = 4 ∧ 1 ≤ mn ∧ mn ≤ 12 ∧ 1 ≤ dn ∧ dn ≤ 31 then
        some (yn, mn, dn)
      else none
    | _, _, _ => none
  | _ => none

/-- `HH:MM` or `HH:MM:SS`, as seconds-of-day. -/
def parseTimePart (s : List Char) : Option Nat :=
  match splitOnC ':' s with
  | [h, mi] =>
    match digits? h, digits? mi with
    | some hn, some min' =>
      if hn < 24 ∧ min' < 60 then some (hn * 3600 + min' * 60) else none
    | _, _ => none
  | [h, mi, sec] =>
    match digits? h, digits? mi, digits? sec with
    | some hn, some min', some sn =>
      if hn < 24 ∧ min' < 60 ∧ sn < 60 then
        some (hn * 3600 + min' * 60 + sn)
      else none
    | _, _, _ => none
  | _ => none

/-- Injective day encoding (the exact calendar is irrelevant: the
code only inspects the time-of-day component). -/
def encodeTS (y m d secs : Nat) : Int :=
  ((y * 400 + m * 31 + d : Nat) : Int) * nsPerDay + (secs : Int) * 1000000000

def parseTSString (s : String) : Option Int :=
  match splitOnC ' ' s.data with
  | [d] => (parseDatePart d).map fun (y, m, dd) => encodeTS y m dd 0
  | [d, t] =>
    match parseDatePart d, parseTimePart t with
    | some (y, m, dd), some secs => some (encodeTS y m dd secs)
    | _, _ => none
  | [dd, mon, y] =>
    match digits? dd, monthNum mon, digits? y with
    | some dn, some mn, some yn =>
      if 1 ≤ dn ∧ dn ≤ 31 ∧ y.length = 4 then some (encodeTS yn mn dn 0) else none
    | _, _, _ => none
  | _ => none

/-- Element-wise `pd.to_datetime(·, errors="coerce")` on an
object-dtype series: strings are parsed; a raw integer is epoch
nanoseconds; booleans and floats coerce to `NaT` in this model. -/
def parseTS : Val → Option Int
  | .vStr s => parseTSString s
  | .vInt n => some n
  | _ => none

/-- A parsed timestamp whose time-of-day component is midnight. -/
def isMidnight (ts : Int) : Bool := ts % nsPerDay = 0

/-- `str(value)` as applied by `s.astype(str)`. -/
def strOfVal : Val → String
  | .vStr s => s
  | .vInt n => toString n
  | .vBool b => if b then "True" else "False"
  | .vRat q => toString q

/-- The VARCHAR bucketing / TEXT fallback branch of `infer_sql_type`
(src/utils.py lines 44-49). -/
def strBucket (s : List Val) : String :=
  let maxlen := (s.map fun v => (strOfVal v).length).foldl max 0
  if maxlen ≤ 255 then
    if maxlen ≤ 50 then "VARCHAR(50)"
    else if maxlen ≤ 100 then "VARCHAR(100)"
    else "VARCHAR(255)"
  else "TEXT"

/-- `infer_sql_type` (src/utils.py lines 19-49): empty sample →
TEXT; bool dtype → BOOLEAN; int dtype or int-like float dtype →
INTEGER/BIGINT by range; float dtype → NUMERIC(18,6); otherwise try
`pd.to_datetime(errors="coerce")` — if not every value coerced to
`NaT`, return DATE when every parsed timestamp is midnight (a `NaT`
fails that test), else TIMESTAMPTZ; otherwise bucket as
VARCHAR/TEXT by maximum stringified length. -/
def infer_sql_type (col : List Cell) : String :=
  let s := dropna col
  if s = [] then "TEXT"
  else
    match dtypeOf col with
    | .bool => "BOOLEAN"
    | .int => intRange s
    | .float => if intLikeVals s then intRange s else "NUMERIC(18,6)"
    | .obj =>
      if s.any fun v => (parseTS v).isSome then
        if s.all fun v =>
            match parseTS v with
            | some ts => isMidnight ts
            | none => false then
          "DATE"
        else "TIMESTAMPTZ"
      else strBucket s

/-- Python `str.endswith`. -/
def strEndsWith (s pat : String) : Bool :=
  pat.data.isSuffixOf s.data

/-- `pk_score` (src/utils.py lines 51-57). -/
def pk_score (colname : String) (unique notnull : Bool) (table : String) : Int :=
  (if unique && notnull then 3 else 0)
    + (if colname = "id" then 3 else 0)
    + (if strEndsWith colname "_id" then 2 else 0)
    + (if colname = table ++ "id" then 2 else 0)

/-- `_ID_HINTS.search(col)` for the regex `(?:^|_)(id|.*_id)$`
(src/utils.py line 5).  A match ends at the end of the string and its
start is the string start or follows `_`, so the names matched are
exactly `"id"` itself and names ending in `"_id"`; a name such as
`"customerid"` does NOT match. -/
def idHintsMatch (s : String) : Bool :=
  s = "id" || strEndsWith s "_id"

/-! ## `DynamicNormalizationPipeline` (src/dynamic_normalization_pipeline.py)

The pipeline state after loading: `tables` (load order preserved),
`col_types`, `pks` and `fks`, all insertion-ordered maps modelled as
association lists. -/

/-- The mutable state of `DynamicNormalizationPipeline`. -/
structure Model where
  tables : List (String × Columns)
  types : List (String × List (String × String))
  pks : List (String × String)
  fks : List (String × List (String × String × String))
deriving DecidableEq, Repr

/-- `len(df)`: the row count of a table (all columns of a well-formed
table have this length; a zero-column frame has zero rows). -/
def nrows (cols : Columns) : Nat := (cols.headD ("", [])).2.length

/-- `df[c].is_unique`: no duplicated cells, nulls compared equal. -/
def isUniqueCol (cells : List Cell) : Bool :=
  cells.dedup.length = cells.length

/-- `infer_column_types` (lines 43-45). -/
def infer_column_types (m : Model) : Model :=
  { m with
    types := m.tables.map fun t => (t.1, t.2.map fun c => (c.1, infer_sql_type c.2)) }

/-- The scan `best = (-1, None); for c in df.columns: ... if score >
best[0]: best = (score, c)` of `infer_primary_keys` (lines 49-54). -/
def pickBest (tname : String) (cols : Columns) : Int × Option String :=
  cols.foldl
    (fun best c =>
      let score := pk_score c.1 (isUniqueCol c.2) (c.2.all Option.isSome) tname
      if score > best.1 then (score, some c.1) else best)
    (-1, none)

/-- Python truthiness of `best[1]` (line 55): `None` and the empty
string are falsy. -/
def truthy : Option String → Bool
  | none => false
  | some s => s ≠ ""

/-- The surrogate-name loop (lines 58-62): try `"id"`, then `"id2"`,
`"id3"`, …, returning the first name not already a column. -/
def synthName (names : List String) : String :=
  let cands := "id" :: (List.range (names.length + 1)).map fun k => "id" ++ toString (k + 2)
  (cands.filter fun s => !names.contains s).headD "id"

/-- One table's step of `infer_primary_keys` (lines 48-66): the
updated columns, the chosen primary key, and whether a surrogate was
synthesized (`df.insert(0, synth, range(1, len(df)+1))` prepends the
new column). -/
def inferPkOne (tname : String) (cols : Columns) : Columns × String × Bool :=
  let best := (pickBest tname cols).2
  if truthy best then (cols, best.getD "", false)
  else
    let synth := synthName (cols.map Prod.fst)
    let newCol := (List.range (nrows cols)).map fun i => some (Val.vInt (Int.ofNat (i + 1)))
    ((synth, newCol) :: cols, synth, true)

/-- `infer_primary_keys` (lines 47-66); on synthesis the surrogate is
registered in `col_types` as BIGSERIAL. -/
def infer_primary_keys (m : Model) : Model :=
  let upd := m.tables.map fun p => (p.1, inferPkOne p.1 p.2)
  { m with
    tables := upd.map fun p => (p.1, p.2.1)
    pks := upd.map fun p => (p.1, p.2.2.1)
    types := upd.map fun p =>
      (p.1,
        if p.2.2.2 then ((lookup? m.types p.1).getD []) ++ [(p.2.2.1, "BIGSERIAL")]
        else (lookup? m.types p.1).getD []) }

/-- `df[col].dropna().unique()` as a duplicate-free list (used as a
set: only membership and cardinality are consumed). -/
def distinctVals (cells : List Cell) : List Val := (dropna cells).dedup

/-- `pk_sets[pt]` (lines 70-73): the distinct non-null values of a
parent table's primary-key column. -/
def pkValsOf (m : Model) (pt ppk : String) : List Val :=
  match lookup? m.tables pt with
  | some cols =>
    match lookup? cols ppk with
    | some cells => distinctVals cells
    | none => []
  | none => []

/-- `frac = hit / max(1, len(child_vals))` (line 88), as an exact
rational. -/
def fracOf (childVals parentVals : List Val) : ℚ :=
  mkRat (childVals.countP fun v => parentVals.contains v) (max 1 childVals.length)

/-- The default `DynConfig.fk_match_threshold = 0.8`. -/
def defaultThreshold : ℚ := mkRat 4 5

/-- The inner parent scan of `infer_foreign_keys` for one child
column (lines 75-91): skip the table's own PK column and names that
fail `_ID_HINTS`; otherwise record an edge to the first parent (in
`pks` order) that is a different table, has a non-empty child
distinct-value set, and meets the threshold — `break` after the
first hit. -/
def fkForCol (m : Model) (th : ℚ) (ct : String) (c : String × List Cell) :
    Option (String × String × String) :=
  if lookup? m.pks ct = some c.1 then none
  else if !idHintsMatch c.1 then none
  else
    (m.pks.find? fun p =>
        decide (p.1 ≠ ct) && !(distinctVals c.2).isEmpty &&
          decide (th ≤ fracOf (distinctVals c.2) (pkValsOf m p.1 p.2))).map
      fun p => (c.1, p.1, p.2)

/-- `infer_foreign_keys` (lines 68-91). -/
def infer_foreign_keys (th : ℚ) (m : Model) : Model :=
  { m with fks := m.tables.map fun t => (t.1, t.2.filterMap (fkForCol m th t.1)) }

/-! ### SQL emission (`_emit_table_sql`, `export_indexes_sql`) -/

/-- `',\n'.join(cols)` (line 128). -/
def joinCommaNl : List String → String
  | [] => ""
  | [x] => x
  | x :: xs => x ++ ",\n" ++ joinCommaNl xs

/-- One FK constraint line (line 127): note the leading comma
inside the line itself. -/
def fkClause (e : String × String × String) : String :=
  "  ,FOREIGN KEY (" ++ e.1 ++ ") REFERENCES " ++ e.2.1 ++ "(" ++ e.2.2 ++
    ") ON UPDATE CASCADE ON DELETE RESTRICT"

/-- The audit columns appended when `cfg.add_audit_cols` (lines
122-124). -/
def auditCols : List String :=
  ["  created_at TIMESTAMPTZ NOT NULL DEFAULT now()",
   "  updated_at TIMESTAMPTZ NOT NULL DEFAULT now()"]

/-- `_emit_table_sql` (lines 112-128). -/
def emitTableSql (m : Model) (addAudit : Bool) (t : String) : String :=
  let cols := (lookup? m.tables t).getD []
  let pk := (lookup? m.pks t).getD ""
  let tys := (lookup? m.types t).getD []
  let colLines := cols.map fun c =>
    "  " ++ c.1 ++ " " ++ (lookup? tys c.1).getD "TEXT" ++
      (if c.2.all Option.isSome then " NOT NULL" else "")
  let lines := colLines ++ (if addAudit then auditCols else []) ++
    ["  PRIMARY KEY (" ++ pk ++ ")"] ++ ((lookup? m.fks t).getD []).map fkClause
  "CREATE TABLE IF NOT EXISTS " ++ t ++ " (\n" ++ joinCommaNl lines ++ "\n);"

/-- The per-edge index statements of `export_indexes_sql` (lines
139-143). -/
def indexLines (m : Model) : List String :=
  (m.fks.map fun t =>
    t.2.map fun e =>
      "CREATE INDEX IF NOT EXISTS idx_" ++ t.1 ++ "_" ++ e.1 ++ " ON " ++ t.1 ++
        "(" ++ e.1 ++ ");").flatten

/-- Whether `pat` occurs as a contiguous substring (over the
character lists). -/
def occursIn (pat : List Char) : List Char → Bool
  | [] => pat.isEmpty
  | c :: rest => pat.isPrefixOf (c :: rest) || occursIn pat rest

def containsSub (s pat : String) : Bool := occursIn pat.data s.data

/-! ## `NormalizationPipeline` (src/normalization_pipeline.py):
null handling and referential-integrity checking -/

/-- `NullPolicy` (lines 30-37). -/
structure NullPolicy where
  column_policy : List (String × String)
  defaults : List (String × Val)
  fallback : String

/-- `policy.column_policy.get(col, policy.fallback)` (line 176). -/
def colPolicy (p : NullPolicy) (c : String) : String :=
  (lookup? p.column_policy c).getD p.fallback

/-- Whether row `i` is accumulated into `drop_idx` (lines 182-183):
some column with the `"drop_row"` policy is null at `i`. -/
def dropSet (p : NullPolicy) (cols : Columns) (i : Nat) : Bool :=
  cols.any fun c => colPolicy p c.1 = "drop_row" && c.2.get? i == some none

/-- The `"fill_default"` branch (lines 184-186): nulls replaced with
`policy.defaults.get(col, "")` — the empty string when the column has
no declared default. -/
def fillCol (p : NullPolicy) (c : String) (cells : List Cell) : List Cell :=
  if colPolicy p c = "fill_default" then
    cells.map fun cell => some (cell.getD ((lookup? p.defaults c).getD (Val.vStr "")))
  else cells

/-- `handle_nulls` for one table (lines 170-190): fills applied
per column, then the accumulated union of null-row indices of all
`"drop_row"` columns removed once at the end. -/
def handle_nulls (p : NullPolicy) (cols : Columns) : Columns :=
  cols.map fun c =>
    (c.1,
      ((List.range (fillCol p c.1 c.2).length).filter fun i => !dropSet p cols i).filterMap
        (fillCol p c.1 c.2).get?)

/-- An explicitly declared relationship (lines 50-56). -/
structure Relationship where
  child_table : String
  child_col : String
  parent_table : String
  parent_col : String

/-- The outcome of one relationship check: the `SKIP:`, `✅ RI:`
(pass) or `❌ RI:` (fail, with count) finding. -/
inductive RIFinding where
  | skip
  | pass
  | fail (count : Nat)
deriving DecidableEq, Repr

/-- One iteration of `check_referential_integrity` (lines 197-212):
SKIP when a table or column is missing; otherwise
`count_missing = (~child[cc].isin(parent[pc])).sum()` — every child
cell, nulls included, not present among the parent column's cells
(pandas `isin` matches null to null) — FAIL with that count when
positive, else PASS. -/
def check_rel (tables : List (String × Columns)) (rel : Relationship) : RIFinding :=
  match lookup? tables rel.child_table, lookup? tables rel.parent_table with
  | some child, some parent =>
    match lookup? child rel.child_col, lookup? parent rel.parent_col with
    | some ccells, some pcells =>
      let countMissing := ccells.countP fun v => !(pcells.contains v)
      if countMissing > 0 then .fail countMissing else .pass
    | _, _ => .skip
  | _, _ => .skip

/-- `check_referential_integrity` (lines 194-212): one finding per
declared relationship, the loaded tables only read, never written. -/
def check_referential_integrity (tables : List (String × Columns))
    (rels : List Relationship) : List RIFinding :=
  rels.map (check_rel tables)

/-! ## Concrete fixtures -/

def cA : Cell := some (.vStr "A")
def cB : Cell := some (.vStr "B")
def cC : Cell := some (.vStr "C")

/-- A single-column table whose only column is non-unique and
nullable and matches no id-naming heuristic: every `pk_score` is 0. -/
def noKeyCols : Columns := [("name", [cA, cA, none])]

def noKeyModel : Model :=
  { tables := [("t", noKeyCols)], types := [], pks := [], fks := [] }

/-- `noKeyModel` after type inference and PK selection. -/
def noKeyRun : Model := infer_primary_keys (infer_column_types noKeyModel)

/-- The end-to-end scenario of the spec:
`orders(orderid: 1..5, customerid: [A,A,B,B,C])` and
`customers(customerid: [A,B,C], name: [...])`, in load order. -/
def e2eModel : Model :=
  { tables :=
      [("orders",
        [("orderid",
          [some (.vInt 1), some (.vInt 2), some (.vInt 3), some (.vInt 4), some (.vInt 5)]),
         ("customerid", [cA, cA, cB, cB, cC])]),
       ("customers",
        [("customerid", [cA, cB, cC]),
         ("name", [some (.vStr "n1"), some (.vStr "n2"), some (.vStr "n3")])])],
    types := [], pks := [], fks := [] }

/-- `e2eModel` after the full inference sequence of `run_all`. -/
def e2eRun : Model :=
  infer_foreign_keys defaultThreshold (infer_primary_keys (infer_column_types e2eModel))

/-- Two tables that do produce an FK edge: `t1.t2_id` (non-unique,
so not `t1`'s PK; matches the id-hints) fully overlaps `t2`'s PK. -/
def fkDemoModel : Model :=
  { tables :=
      [("t2", [("id", [some (.vInt 1), some (.vInt 2), some (.vInt 3)])]),
       ("t1",
        [("a", [some (.vInt 10), some (.vInt 20)]),
         ("t2_id", [some (.vInt 1), some (.vInt 1)])])],
    types := [], pks := [], fks := [] }

def fkDemoRun : Model :=
  infer_foreign_keys defaultThreshold (infer_primary_keys (infer_column_types fkDemoModel))

/-- A resolved model at the FK threshold boundary: the child column
`c.p_id` has 10 distinct values of which exactly 8 occur in parent
`p`'s PK set (match fraction exactly 0.8). -/
def boundaryCells : List Cell := (List.range 10).map fun i => some (.vInt (Int.ofNat (i + 1)))

def boundaryChild : Columns := [("cid", boundaryCells), ("p_id", boundaryCells)]

def boundaryModel : Model :=
  { tables :=
      [("p", [("id", (List.range 8).map fun i => some (.vInt (Int.ofNat (i + 1))))]),
       ("c", boundaryChild)],
    types := [], pks := [("p", "id"), ("c", "cid")], fks := [] }

/-- Referential-integrity fixture: child column `c.k` holds a single
null; parent column `p.k` holds the value 1 and no null. -/
def riTables : List (String × Columns) :=
  [("c", [("k", [none])]), ("p", [("k", [some (.vInt 1)])])]

def riRel : Relationship := ⟨"c", "k", "p", "k"⟩

/-- Null-handling fixture: `a` carries `drop_row` and is null in row
1 of 3; `b` carries `fill_default` with no declared default and is
null in row 0. -/
def nhPolicy : NullPolicy := ⟨[("a", "drop_row"), ("b", "fill_default")], [], "leave"⟩

def nhCols : Columns :=
  [("a", [some (.vInt 1), none, some (.vInt 3)]),
   ("b", [none, some (.vInt 5), some (.vInt 6)])]

/-- A two-row table whose only column is named the empty string:
`best[1]` is falsy, so the surrogate branch runs on a table with
rows. -/
def emptyNameCols : Columns := [("", [cA, cA])]

/-! ## Claim theorems -/

theorem pk_score_nonneg (c : String) (u n : Bool) (t : String) :
    0 ≤ pk_score c u n t := by
  unfold pk_score
  split <;> split <;> split <;> split <;> decide

/-- The `best`-scan returns either its initial candidate or one of
the scanned column names. -/
theorem pickBest_foldl_mem (tname : String) (cols : Columns) (init : Int × Option String) :
    (cols.foldl
      (fun best c =>
        let score := pk_score c.1 (isUniqueCol c.2) (c.2.all Option.isSome) tname
        if score > best.1 then (score, some c.1) else best)
      init).2 = init.2 ∨
    ∃ c ∈ cols,
      (cols.foldl
        (fun best c =>
          let score := pk_score c.1 (isUniqueCol c.2) (c.2.all Option.isSome) tname
          if score > best.1 then (score, some c.1) else best)
        init).2 = some c.1 := by
  induction cols generalizing init with
  | nil => exact Or.inl rfl
  | cons c cs ih =>
    simp only [List.foldl_cons]
    rcases ih (if pk_score c.1 (isUniqueCol c.2) (c.2.all Option.isSome) tname > init.1
        then (pk_score c.1 (isUniqueCol c.2) (c.2.all Option.isSome) tname, some c.1)
        else init) with h | ⟨c', hc', h⟩
    · by_cases hs : pk_score c.1 (isUniqueCol c.2) (c.2.all Option.isSome) tname > init.1
      · right
        exact ⟨c, List.mem_cons_self c cs, by rw [h, if_pos hs]⟩
      · left
        rw [h, if_neg hs]
    · right
      exact ⟨c', List.mem_cons_of_mem c hc', h⟩

/-- On a non-empty table the scan always settles on some column. -/
theorem pickBest_mem (tname : String) (cols : Columns) (h : cols ≠ []) :
    ∃ c ∈ cols, (pickBest tname cols).2 = some c.1 := by
  match cols, h with
  | c :: cs, _ =>
    unfold pickBest
    simp only [List.foldl_cons]
    have hstep :
        (if pk_score c.1 (isUniqueCol c.2) (c.2.all Option.isSome) tname > (-1 : Int)
          then (pk_score c.1 (isUniqueCol c.2) (c.2.all Option.isSome) tname, some c.1)
          else ((-1 : Int), (none : Option String))) =
        (pk_score c.1 (isUniqueCol c.2) (c.2.all Option.isSome) tname, some c.1) := by
      rw [if_pos]
      have := pk_score_nonneg c.1 (isUniqueCol c.2) (c.2.all Option.isSome) tname
      omega
    rw [hstep]
    rcases pickBest_foldl_mem tname cs
        (pk_score c.1 (isUniqueCol c.2) (c.2.all Option.isSome) tname, some c.1) with h | ⟨c', hc', h⟩
    · exact ⟨c, List.mem_cons_self c cs, h⟩
    · exact ⟨c', List.mem_cons_of_mem c hc', h⟩

/-- Claim C1, amended: the surrogate branch is reachable only
through a falsy best candidate (a table with zero columns, or whose
winning column is named the empty string).  For every table with at
least one column, all columns nonempty-named, `infer_primary_keys`
never synthesizes a surrogate — even when the best score is 0 — and
instead selects one of the existing columns as primary key.  (When
the branch does run, it behaves as claimed: see the C2 amended
theorem for the synthesized column's contents.) -/
theorem c1_amended (tname : String) (cols : Columns) (hne : cols ≠ [])
    (hnames : ∀ p ∈ cols, p.1 ≠ "") :
    (inferPkOne tname cols).1 = cols ∧
    (inferPkOne tname cols).2.2 = false ∧
    ∃ p ∈ cols, (inferPkOne tname cols).2.1 = p.1 := by
  obtain ⟨c, hc, hbest⟩ := pickBest_mem tname cols hne
  have ht : truthy (pickBest tname cols).2 = true := by
    rw [hbest]
    simpa [truthy] using hnames c hc
  unfold inferPkOne
  rw [if_pos ht]
  exact ⟨rfl, rfl, ⟨c, hc, by rw [hbest]; rfl⟩⟩

/-- Claim C1, amended, witness at the concrete no-signal table. -/
theorem c1_amended_witness :
    (noKeyCols ≠ [] ∧ ∀ p ∈ noKeyCols, p.1 ≠ "") ∧
    (inferPkOne "t" noKeyCols).1 = noKeyCols ∧
    (inferPkOne "t" noKeyCols).2.2 = false ∧
    ∃ p ∈ noKeyCols, (inferPkOne "t" noKeyCols).2.1 = p.1 :=
  ⟨⟨by decide, by decide⟩, c1_amended "t" noKeyCols (by decide) (by decide)⟩

/-- Claim C1, counterexample: in table `t` no column is
unique-and-not-null and none matches the id-naming heuristics — the
best key-fitness score is 0 ≤ 0 — yet `infer_primary_keys` does NOT
synthesize a surrogate: the table keeps its single column `name`
(no column named `id` appears) and `name` itself is selected as the
primary key. -/
theorem c1_counterexample :
    pickBest "t" noKeyCols = (0, some "name") ∧
    lookup? noKeyRun.tables "t" = some noKeyCols ∧
    lookup? noKeyRun.pks "t" = some "name" := by decide

/-- Claim C2, amended: PK uniqueness/non-nullness is NOT guaranteed
for selected existing columns (see the counterexample); it holds
exactly for synthesized surrogates: whenever `infer_primary_keys`
synthesizes, the assigned PK column holds the sequential values
1..N — pairwise distinct and null-free. -/
theorem c2_amended (tname : String) (cols : Columns)
    (h : (inferPkOne tname cols).2.2 = true) :
    lookup? (inferPkOne tname cols).1 (inferPkOne tname cols).2.1 =
      some ((List.range (nrows cols)).map fun i => some (Val.vInt (Int.ofNat (i + 1)))) ∧
    isUniqueCol ((List.range (nrows cols)).map fun i => some (Val.vInt (Int.ofNat (i + 1)))) = true ∧
    (((List.range (nrows cols)).map fun i =>
      (some (Val.vInt (Int.ofNat (i + 1))) : Cell)).all Option.isSome) = true := by
  have hnodup :
      ((List.range (nrows cols)).map fun i => (some (Val.vInt (Int.ofNat (i + 1))) : Cell)).Nodup := by
    refine List.Nodup.map ?_ (List.nodup_range _)
    intro a b hab
    injection hab with h1
    injection h1 with h2
    have h3 := Int.ofNat.inj h2
    omega
  refine ⟨?_, ?_, ?_⟩
  · unfold inferPkOne at h ⊢
    by_cases ht : truthy (pickBest tname cols).2 = true
    · rw [if_pos ht] at h
      simp at h
    · rw [if_neg ht]
      simp [lookup?, List.find?]
  · simp only [isUniqueCol, decide_eq_true_eq]
    rw [List.dedup_eq_self.mpr hnodup]
  · simp [List.all_eq_true]

/-- Claim C2, amended, witness: a table whose only column is named
`""` (falsy), so the surrogate branch runs on a 2-row table. -/
theorem c2_amended_witness :
    (inferPkOne "t" emptyNameCols).2.2 = true ∧
    (lookup? (inferPkOne "t" emptyNameCols).1 (inferPkOne "t" emptyNameCols).2.1 =
      some ((List.range (nrows emptyNameCols)).map fun i => some (Val.vInt (Int.ofNat (i + 1)))) ∧
    isUniqueCol ((List.range (nrows emptyNameCols)).map fun i =>
      some (Val.vInt (Int.ofNat (i + 1)))) = true ∧
    (((List.range (nrows emptyNameCols)).map fun i =>
      (some (Val.vInt (Int.ofNat (i + 1))) : Cell)).all Option.isSome) = true) :=
  ⟨by decide, c2_amended "t" emptyNameCols (by decide)⟩

/-- Claim C2, counterexample: after PK assignment on `noKeyModel`,
the assigned PK column `t.name` contains both a duplicate value and
a null. -/
theorem c2_counterexample :
    lookup? noKeyRun.pks "t" = some "name" ∧
    lookup? ((lookup? noKeyRun.tables "t").getD []) "name" = some [cA, cA, none] ∧
    isUniqueCol [cA, cA, none] = false ∧
    [cA, cA, none].all Option.isSome = false := by decide

/-- Claim C3, counterexample: in the end-to-end scenario the
FK-detection name filter REJECTS `orders.customerid` (the `_ID_HINTS`
regex only admits `"id"` itself or names ending in `"_id"`), and no
FK edge is recorded for `orders`. -/
theorem c3_counterexample :
    idHintsMatch "customerid" = false ∧
    lookup? e2eRun.fks "orders" = some [] := by decide

/-- Claim C3, amended: in the end-to-end scenario the primary keys
are selected as claimed (`orders.orderid`, `customers.customerid`),
but `orders.customerid` fails the id-hints filter, so no FK edge is
recorded anywhere, the emitted `CREATE TABLE orders` contains no
FOREIGN KEY clause, and no index statement is emitted. -/
theorem c3_amended :
    e2eRun.pks = [("orders", "orderid"), ("customers", "customerid")] ∧
    e2eRun.fks = [("orders", []), ("customers", [])] ∧
    containsSub (emitTableSql e2eRun true "orders") "FOREIGN KEY" = false ∧
    indexLines e2eRun = [] := by decide

/-- Claim C4, counterexample: the sample
`["2020-01-01", "zzz"]` has a non-null value (`"zzz"`) that fails
timestamp parsing, yet the inferred type is TIMESTAMPTZ (the branch
is disqualified only when EVERY value fails); and for
`["1 Jan 2020"]`, a column whose only value is a string containing
letters, the inferred type is DATE. -/
theorem c4_counterexample :
    parseTS (.vStr "zzz") = none ∧
    infer_sql_type [some (.vStr "2020-01-01"), some (.vStr "zzz")] = "TIMESTAMPTZ" ∧
    "1 Jan 2020".data.any Char.isAlpha = true ∧
    infer_sql_type [some (.vStr "1 Jan 2020")] = "DATE" := by decide

/-- The string branch only ever yields a VARCHAR bucket or TEXT. -/
theorem strBucket_cases (s : List Val) :
    strBucket s = "VARCHAR(50)" ∨ strBucket s = "VARCHAR(100)" ∨
    strBucket s = "VARCHAR(255)" ∨ strBucket s = "TEXT" := by
  unfold strBucket
  dsimp only
  split
  · split
    · exact Or.inl rfl
    · split
      · exact Or.inr (Or.inl rfl)
      · exact Or.inr (Or.inr (Or.inl rfl))
  · exact Or.inr (Or.inr (Or.inr rfl))

/-- Reduction of `infer_sql_type` on a non-empty object-dtype
column: the `pd.to_datetime` branch, else VARCHAR/TEXT. -/
theorem infer_sql_type_obj (col : List Cell) (hemp : dropna col ≠ [])
    (hobj : dtypeOf col = .obj) :
    infer_sql_type col =
      if (dropna col).any fun v => (parseTS v).isSome then
        if (dropna col).all fun v =>
            match parseTS v with
            | some ts => isMidnight ts
            | none => false then
          "DATE"
        else "TIMESTAMPTZ"
      else strBucket (dropna col) := by
  unfold infer_sql_type
  dsimp only
  rw [if_neg hemp, hobj]

/-- Claim C4, amended: for a column whose non-null values are all
strings, the timestamp branch is disqualified exactly when EVERY
non-null value fails timestamp parsing (one parseable value suffices
to keep it, contrary to the claim); equivalently the inferred type
is DATE or TIMESTAMP-WITH-ZONE iff some non-null value parses.  The
inferred type is never INTEGER, NUMERIC or BOOLEAN for such a
column; it CAN be DATE (letters do not prevent parsing — see the
counterexample), so DATE is dropped from the claim's never-list. -/
theorem c4_amended (col : List Cell)
    (hs : ∀ v ∈ dropna col, isStrV v = true) :
    ((infer_sql_type col = "DATE" ∨ infer_sql_type col = "TIMESTAMPTZ") ↔
      ∃ v ∈ dropna col, (parseTS v).isSome = true) ∧
    infer_sql_type col ≠ "INTEGER" ∧
    infer_sql_type col ≠ "NUMERIC(18,6)" ∧
    infer_sql_type col ≠ "BOOLEAN" := by
  by_cases hemp : dropna col = []
  · have ht : infer_sql_type col = "TEXT" := by
      unfold infer_sql_type
      dsimp only
      rw [if_pos hemp]
    rw [ht]
    refine ⟨⟨fun hc => absurd hc (by decide), ?_⟩, by decide, by decide, by decide⟩
    rintro ⟨v, hv, _⟩
    rw [hemp] at hv
    cases hv
  · obtain ⟨v0, hv0⟩ := List.exists_mem_of_ne_nil _ hemp
    have hstr0 : isStrV v0 = true := hs v0 hv0
    obtain ⟨s0, rfl⟩ : ∃ s, v0 = .vStr s := by
      cases v0 <;> simp [isStrV] at hstr0 ⊢
    have h1 : (dropna col).all isBoolV = false := by
      rw [Bool.eq_false_iff]
      intro hall
      have := List.all_eq_true.mp hall _ hv0
      simp [isBoolV] at this
    have h2 : (dropna col).all isIntV = false := by
      rw [Bool.eq_false_iff]
      intro hall
      have := List.all_eq_true.mp hall _ hv0
      simp [isIntV] at this
    have h3 : (dropna col).all isNumV = false := by
      rw [Bool.eq_false_iff]
      intro hall
      have := List.all_eq_true.mp hall _ hv0
      simp [isNumV] at this
    have hobj : dtypeOf col = .obj := by
      unfold dtypeOf
      dsimp only
      rw [h1, h2, h3]
      simp
    have hbranch := infer_sql_type_obj col hemp hobj
    by_cases hP : ((dropna col).any fun v => (parseTS v).isSome) = true
    · have hres : infer_sql_type col = "DATE" ∨ infer_sql_type col = "TIMESTAMPTZ" := by
        rw [hbranch, if_pos hP]
        by_cases hall : ((dropna col).all fun v =>
            match parseTS v with
            | some ts => isMidnight ts
            | none => false) = true
        · rw [if_pos hall]
          exact Or.inl rfl
        · rw [if_neg hall]
          exact Or.inr rfl
      refine ⟨⟨fun _ => List.any_eq_true.mp hP, fun _ => hres⟩, ?_, ?_, ?_⟩ <;>
        rcases hres with h | h <;> rw [h] <;> decide
    · rw [hbranch, if_neg hP]
      rcases strBucket_cases (dropna col) with h | h | h | h <;> rw [h] <;>
        exact ⟨⟨fun hc => absurd hc (by decide),
          fun hex => absurd (List.any_eq_true.mpr hex) hP⟩, by decide, by decide, by decide⟩

/-- Claim C4, amended, witness at a one-string column. -/
theorem c4_amended_witness :
    (∀ v ∈ dropna [some (Val.vStr "hello")], isStrV v = true) ∧
    (((infer_sql_type [some (Val.vStr "hello")] = "DATE" ∨
        infer_sql_type [some (Val.vStr "hello")] = "TIMESTAMPTZ") ↔
      ∃ v ∈ dropna [some (Val.vStr "hello")], (parseTS v).isSome = true) ∧
    infer_sql_type [some (Val.vStr "hello")] ≠ "INTEGER" ∧
    infer_sql_type [some (Val.vStr "hello")] ≠ "NUMERIC(18,6)" ∧
    infer_sql_type [some (Val.vStr "hello")] ≠ "BOOLEAN") :=
  ⟨by decide, c4_amended [some (Val.vStr "hello")] (by decide)⟩

/-- Claim C5: evaluation of `_emit_table_sql` at a schema with one
FK edge.  Each FK line carries a leading `,` AND the lines are joined
with `",\n"`, so the rendered DDL contains the doubled comma
`"...PRIMARY KEY (a),\n  ,FOREIGN KEY..."` — not syntactically valid
SQL.  (Column order, NOT NULL annotation, the PRIMARY KEY clause and
the ON UPDATE CASCADE / ON DELETE RESTRICT actions are all as
claimed.) -/
theorem c5_double_comma_bug :
    lookup? fkDemoRun.fks "t1" = some [("t2_id", "t2", "id")] ∧
    emitTableSql fkDemoRun true "t1" =
      "CREATE TABLE IF NOT EXISTS t1 (\n  a INTEGER NOT NULL,\n  t2_id INTEGER NOT NULL,\n  created_at TIMESTAMPTZ NOT NULL DEFAULT now(),\n  updated_at TIMESTAMPTZ NOT NULL DEFAULT now(),\n  PRIMARY KEY (a),\n  ,FOREIGN KEY (t2_id) REFERENCES t2(id) ON UPDATE CASCADE ON DELETE RESTRICT\n);" ∧
    containsSub (emitTableSql fkDemoRun true "t1") ",\n  ," = true := by decide

theorem lookup?_cons {α : Type} (p : String × α) (t : List (String × α)) (k : String) :
    lookup? (p :: t) k = if p.1 = k then some p.2 else lookup? t k := by
  unfold lookup?
  rw [List.find?_cons]
  by_cases hp : p.1 = k
  · simp [hp]
  · simp [hp]

/-- Lookup commutes with a key-preserving per-entry transform. -/
theorem lookup?_map {α β : Type} (l : List (String × α)) (g : String → α → β) (k : String) :
    lookup? (l.map fun p => (p.1, g p.1 p.2)) k = (lookup? l k).map fun v => g k v := by
  induction l with
  | nil => rfl
  | cons p t ih =>
    rw [List.map_cons, lookup?_cons, lookup?_cons]
    by_cases hp : p.1 = k
    · subst hp
      simp
    · rw [if_neg hp, if_neg hp, ih]

/-- With duplicate-free keys, a key determines its value. -/
theorem nodup_keys_eq {α : Type} {l : List (String × α)} (h : (l.map Prod.fst).Nodup)
    {k : String} {a b : α} (ha : (k, a) ∈ l) (hb : (k, b) ∈ l) : a = b := by
  induction l with
  | nil => cases ha
  | cons p t ih =>
    rw [List.map_cons, List.nodup_cons] at h
    rcases List.mem_cons.mp ha with ha1 | ha2
    · rcases List.mem_cons.mp hb with hb1 | hb2
      · have := ha1.trans hb1.symm
        injection this
      · exfalso
        apply h.1
        rw [show p.1 = k from by rw [← ha1]]
        exact List.mem_map.mpr ⟨(k, b), hb2, rfl⟩
    · rcases List.mem_cons.mp hb with hb1 | hb2
      · exfalso
        apply h.1
        rw [show p.1 = k from by rw [← hb1]]
        exact List.mem_map.mpr ⟨(k, a), ha2, rfl⟩
      · exact ih h.2 ha2 hb2

/-- Elimination for a recorded FK edge: its source is the scanned
column, its parent is a different table appearing in `pks`, the
child distinct set is non-empty and meets the threshold. -/
theorem fkForCol_spec {m : Model} {th : ℚ} {ct : String} {c : String × List Cell}
    {e : String × String × String} (h : fkForCol m th ct c = some e) :
    e.1 = c.1 ∧ e.2.1 ≠ ct ∧
    ∃ p ∈ m.pks, e.2.1 = p.1 ∧ e.2.2 = p.2 ∧
      distinctVals c.2 ≠ [] ∧ th ≤ fracOf (distinctVals c.2) (pkValsOf m p.1 p.2) := by
  unfold fkForCol at h
  by_cases h1 : lookup? m.pks ct = some c.1
  · rw [if_pos h1] at h
    cases h
  · rw [if_neg h1] at h
    by_cases h2 : idHintsMatch c.1 = true
    · rw [if_neg (by simp [h2])] at h
      rw [Option.map_eq_some'] at h
      obtain ⟨p, hfind, rfl⟩ := h
      have hp := List.find?_some hfind
      have hmem := List.mem_of_find?_eq_some hfind
      simp only [Bool.and_eq_true, decide_eq_true_eq] at hp
      obtain ⟨⟨hne, hvals⟩, hfrac⟩ := hp
      refine ⟨rfl, hne, p, hmem, rfl, rfl, ?_, hfrac⟩
      simpa [List.isEmpty_iff] using hvals
    · rw [if_pos (by simp [Bool.not_eq_true] at h2 ⊢; exact h2)] at h
      cases h

/-- The `fks` entry of a table after `infer_foreign_keys`. -/
theorem fks_lookup (m : Model) (th : ℚ) (ct : String) (cols : Columns)
    (ht : lookup? m.tables ct = some cols) :
    lookup? (infer_foreign_keys th m).fks ct = some (cols.filterMap (fkForCol m th ct)) := by
  have h := lookup?_map m.tables (fun k v => v.filterMap (fkForCol m th k)) ct
  rw [ht] at h
  exact h

/-- Claim C6: for an admitted child column (id-hints name, not the
table's own PK), an FK edge is recorded exactly when the child's
distinct non-null value set is non-empty and some other table's PK
set meets the match fraction threshold — `frac ≥ th`, inclusive at
the boundary. -/
theorem c6_fk_threshold (m : Model) (th : ℚ) (ct : String) (cols : Columns)
    (col : String) (cells : List Cell)
    (ht : lookup? m.tables ct = some cols)
    (hmem : (col, cells) ∈ cols)
    (hnd : (cols.map Prod.fst).Nodup)
    (hpk : lookup? m.pks ct ≠ some col)
    (hhint : idHintsMatch col = true) :
    (∃ pt ppk, (col, pt, ppk) ∈ (lookup? (infer_foreign_keys th m).fks ct).getD []) ↔
    (distinctVals cells ≠ [] ∧
      ∃ p ∈ m.pks, p.1 ≠ ct ∧ th ≤ fracOf (distinctVals cells) (pkValsOf m p.1 p.2)) := by
  rw [fks_lookup m th ct cols ht]
  simp only [Option.getD_some]
  constructor
  · rintro ⟨pt, ppk, hedge⟩
    obtain ⟨c, hc, hfk⟩ := List.mem_filterMap.mp hedge
    obtain ⟨hfst, hne, p, hp, he1, he2, hvals, hfrac⟩ := fkForCol_spec hfk
    obtain ⟨c1, c2⟩ := c
    simp only at hfst he1 he2
    rw [← hfst] at hc
    have hc2 : c2 = cells := nodup_keys_eq hnd hc hmem
    rw [hc2] at hvals hfrac
    exact ⟨hvals, p, hp, he1 ▸ hne, hfrac⟩
  · rintro ⟨hvne, p, hp, hne, hfrac⟩
    have hvne' : (distinctVals cells).isEmpty = false := by
      simpa [List.isEmpty_iff] using hvne
    have hsome : (m.pks.find? fun q =>
        decide (q.1 ≠ ct) && !(distinctVals cells).isEmpty &&
          decide (th ≤ fracOf (distinctVals cells) (pkValsOf m q.1 q.2))).isSome = true := by
      apply List.find?_isSome.mpr
      exact ⟨p, hp, by simp [hne, hvne', hfrac]⟩
    obtain ⟨q, hfind⟩ := Option.isSome_iff_exists.mp hsome
    have hfk : fkForCol m th ct (col, cells) = some (col, q.1, q.2) := by
      unfold fkForCol
      rw [if_neg hpk, if_neg (by simp [hhint]), hfind]
      rfl
    exact ⟨q.1, q.2, List.mem_filterMap.mpr ⟨(col, cells), hmem, hfk⟩⟩

/-- Claim C6, witness: the child column `c.p_id` has 10 distinct
values, exactly 8 of them in parent `p`'s PK set — match fraction
exactly 0.8 — and an edge IS recorded (inclusive threshold). -/
theorem c6_witness :
    (lookup? boundaryModel.tables "c" = some boundaryChild ∧
     ("p_id", boundaryCells) ∈ boundaryChild ∧
     (boundaryChild.map Prod.fst).Nodup ∧
     lookup? boundaryModel.pks "c" ≠ some "p_id" ∧
     idHintsMatch "p_id" = true ∧
     fracOf (distinctVals boundaryCells) (pkValsOf boundaryModel "p" "id") = mkRat 4 5) ∧
    (∃ pt ppk, ("p_id", pt, ppk) ∈
      (lookup? (infer_foreign_keys defaultThreshold boundaryModel).fks "c").getD []) :=
  ⟨⟨by decide, by decide, by decide, by decide, by decide, by decide⟩,
   (c6_fk_threshold boundaryModel defaultThreshold "c" boundaryChild "p_id" boundaryCells
      (by decide) (by decide) (by decide) (by decide) (by decide)).mpr (by decide)⟩

/-- The source column names of recorded edges form a sub-sequence of
the table's column names. -/
theorem filterMap_fst_sublist (cols : Columns)
    (f : String × List Cell → Option (String × String × String))
    (hf : ∀ c e, f c = some e → e.1 = c.1) :
    ((cols.filterMap f).map fun e => e.1).Sublist (cols.map Prod.fst) := by
  induction cols with
  | nil => simp
  | cons c t ih =>
    rw [List.filterMap_cons]
    cases hfc : f c with
    | none =>
      rw [List.map_cons]
      exact List.Sublist.cons _ ih
    | some e =>
      rw [List.map_cons, List.map_cons, hf c e hfc]
      exact List.Sublist.cons₂ _ ih

/-- Claim C7: with duplicate-free column names, at most one FK edge
is recorded per child column (the edges' source columns are
pairwise distinct — the scan `break`s after the first parent that
crosses the threshold), and no recorded edge points at the child
table itself. -/
theorem c7_fk_unique_no_self (m : Model) (th : ℚ) (ct : String) (cols : Columns)
    (edges : List (String × String × String))
    (ht : lookup? m.tables ct = some cols)
    (hnd : (cols.map Prod.fst).Nodup)
    (he : lookup? (infer_foreign_keys th m).fks ct = some edges) :
    (edges.map fun e => e.1).Nodup ∧ ∀ e ∈ edges, e.2.1 ≠ ct := by
  rw [fks_lookup m th ct cols ht] at he
  obtain rfl := Option.some.inj he
  constructor
  · exact List.Nodup.sublist
      (filterMap_fst_sublist cols _ fun c e h => (fkForCol_spec h).1) hnd
  · intro e hee
    obtain ⟨c, hc, hfk⟩ := List.mem_filterMap.mp hee
    exact (fkForCol_spec hfk).2.1

/-- Claim C7, witness at the boundary fixture: one edge, sourced at
`p_id`, pointing at `p ≠ c`. -/
theorem c7_witness :
    (lookup? boundaryModel.tables "c" = some boundaryChild ∧
     (boundaryChild.map Prod.fst).Nodup ∧
     lookup? (infer_foreign_keys defaultThreshold boundaryModel).fks "c" =
       some [("p_id", "p", "id")]) ∧
    (([("p_id", "p", "id")].map fun e => e.1).Nodup ∧
     ∀ e ∈ [("p_id", "p", "id")], e.2.1 ≠ "c") :=
  ⟨⟨by decide, by decide, by decide⟩,
   c7_fk_unique_no_self boundaryModel defaultThreshold "c" boundaryChild
     [("p_id", "p", "id")] (by decide) (by decide) (by decide)⟩

/-- Claim C8, counterexample: the declared relationship
`c.k → p.k` where the child column holds a single null and the
parent column has no null: the count of child NON-null values absent
from the parent is 0 (there are none), so the claim requires PASS —
but the check reports FAIL with count 1, because `~isin` counts the
null row. -/
theorem c8_counterexample :
    (dropna [(none : Cell)]).countP (fun v => !(dropna [some (.vInt 1)]).contains v) = 0 ∧
    check_rel riTables riRel = .fail 1 := by decide

/-- Claim C8, amended: the check reports SKIP exactly when a table
or column is missing; otherwise it reports FAIL with a count equal
to the number of child CELLS — nulls included, a null child cell
counting as absent unless the parent column itself contains a null —
whose value is not among the parent column's cells, or PASS when
that count is zero.  The check reads the loaded tables and produces
findings only (it is a pure function of the tables). -/
theorem c8_ri_amended (tables : List (String × Columns)) (rel : Relationship) :
    check_rel tables rel =
      match lookup? tables rel.child_table, lookup? tables rel.parent_table with
      | some child, some parent =>
        match lookup? child rel.child_col, lookup? parent rel.parent_col with
        | some ccells, some pcells =>
          if (ccells.filter fun v => decide (¬ v ∈ pcells)).length = 0 then RIFinding.pass
          else RIFinding.fail (ccells.filter fun v => decide (¬ v ∈ pcells)).length
        | _, _ => RIFinding.skip
      | _, _ => RIFinding.skip := by
  unfold check_rel
  cases h1 : lookup? tables rel.child_table with
  | none => rfl
  | some child =>
    cases h2 : lookup? tables rel.parent_table with
    | none => rfl
    | some parent =>
      dsimp only
      cases h3 : lookup? child rel.child_col with
      | none => rfl
      | some ccells =>
        cases h4 : lookup? parent rel.parent_col with
        | none => rfl
        | some pcells =>
          dsimp only
          have hc : (ccells.countP fun v => !(pcells.contains v)) =
              (ccells.filter fun v => decide (¬ v ∈ pcells)).length := by
            rw [List.countP_eq_length_filter]
            congr 1
            apply List.filter_congr
            intro x _
            have hcm : pcells.contains x = decide (x ∈ pcells) := by
              rw [Bool.eq_iff_iff]
              simp [List.elem_iff]
            rw [hcm, decide_not]
          rw [hc]
          by_cases hn : (ccells.filter fun v => decide (¬ v ∈ pcells)).length = 0
          · rw [hn]
            rfl
          · rw [if_pos (Nat.pos_of_ne_zero hn), if_neg hn]

theorem fillCol_length (p : NullPolicy) (c : String) (cells : List Cell) :
    (fillCol p c cells).length = cells.length := by
  unfold fillCol
  split <;> simp

theorem length_filter_not {α : Type} (l : List α) (p : α → Bool) :
    (l.filter fun a => !p a).length = l.length - (l.filter p).length := by
  induction l with
  | nil => rfl
  | cons a t ih =>
    have hle := List.length_filter_le p t
    rw [List.filter_cons, List.filter_cons]
    cases hpa : p a <;> simp [hpa] <;> omega

theorem filterMap_get?_length (l : List Cell) (idx : List Nat)
    (h : ∀ i ∈ idx, i < l.length) :
    (idx.filterMap l.get?).length = idx.length := by
  induction idx with
  | nil => rfl
  | cons i t ih =>
    rw [List.filterMap_cons]
    have hi : i < l.length := h i (List.mem_cons_self i t)
    cases hg : l.get? i with
    | none =>
      have := List.get?_eq_none.mp hg
      omega
    | some a =>
      rw [List.length_cons, List.length_cons,
        ih fun j hj => h j (List.mem_cons_of_mem _ hj)]

/-- Claim C9: the null-handling pass removes exactly the union of
the null-row indices of all `drop_row` columns, once at the end:
every post-pass column of an N-row table has
`N − |{i < N | some drop-policy column is null at i}|` rows. -/
theorem c9_null_drop_rowcount (p : NullPolicy) (cols : Columns) (N : Nat)
    (cc : String × List Cell)
    (hwf : ∀ c ∈ cols, c.2.length = N)
    (hm : cc ∈ handle_nulls p cols) :
    cc.2.length = N - ((List.range N).filter fun i => dropSet p cols i).length := by
  obtain ⟨c, hc, rfl⟩ := List.mem_map.mp hm
  dsimp only
  have hlen : (fillCol p c.1 c.2).length = N := by
    rw [fillCol_length]
    exact hwf c hc
  rw [hlen, filterMap_get?_length]
  · rw [length_filter_not, List.length_range]
  · intro i hi
    rw [hlen]
    exact List.mem_range.mp (List.mem_filter.mp hi).1

/-- Claim C9, witness: 3 rows, one `drop_row` column with one null →
2 rows in every post-pass column. -/
theorem c9_witness :
    (∀ c ∈ nhCols, c.2.length = 3) ∧
    ("a", ([some (Val.vInt 1), some (Val.vInt 3)] : List Cell)) ∈ handle_nulls nhPolicy nhCols ∧
    ([some (Val.vInt 1), some (Val.vInt 3)] : List Cell).length =
      3 - ((List.range 3).filter fun i => dropSet nhPolicy nhCols i).length :=
  ⟨by decide, by decide,
   c9_null_drop_rowcount nhPolicy nhCols 3
     ("a", [some (Val.vInt 1), some (Val.vInt 3)]) (by decide) (by decide)⟩

/-- Claim C10: a column with the `fill_default` policy but no entry
in the declared defaults map has its nulls silently replaced by the
empty string `""` — no null survives in the post-pass column and no
error is raised. -/
theorem c10_fill_default_empty_string (p : NullPolicy) (cols : Columns)
    (c : String) (cells : List Cell)
    (hmem : lookup? cols c = some cells)
    (hpol : lookup? p.column_policy c = some "fill_default")
    (hdef : lookup? p.defaults c = none) :
    ∃ cells', lookup? (handle_nulls p cols) c = some cells' ∧
      (∀ x ∈ cells', x.isSome = true) ∧
      ∀ i, cells.get? i = some none →
        (fillCol p c cells).get? i = some (some (Val.vStr "")) := by
  have hcp : colPolicy p c = "fill_default" := by
    unfold colPolicy
    rw [hpol]
    rfl
  have hfill : fillCol p c cells = cells.map fun cell => some (cell.getD (Val.vStr "")) := by
    unfold fillCol
    rw [if_pos hcp, hdef]
    rfl
  have hlk := lookup?_map cols
    (fun k v =>
      ((List.range (fillCol p k v).length).filter fun i => !dropSet p cols i).filterMap
        (fillCol p k v).get?) c
  rw [hmem] at hlk
  refine ⟨_, hlk, ?_, ?_⟩
  · intro x hx
    obtain ⟨i, _, hget⟩ := List.mem_filterMap.mp hx
    have hxmem : x ∈ fillCol p c cells := List.get?_mem hget
    rw [hfill] at hxmem
    obtain ⟨y, _, rfl⟩ := List.mem_map.mp hxmem
    rfl
  · intro i hi
    rw [hfill, List.get?_map, hi]
    rfl

/-- Claim C10, witness: column `b` has `fill_default`, no declared
default, and a null in row 0. -/
theorem c10_witness :
    (lookup? nhCols "b" = some [none, some (Val.vInt 5), some (Val.vInt 6)] ∧
     lookup? nhPolicy.column_policy "b" = some "fill_default" ∧
     lookup? nhPolicy.defaults "b" = none) ∧
    (∃ cells', lookup? (handle_nulls nhPolicy nhCols) "b" = some cells' ∧
      (∀ x ∈ cells', x.isSome = true) ∧
      ∀ i, ([none, some (Val.vInt 5), some (Val.vInt 6)] : List Cell).get? i = some none →
        (fillCol nhPolicy "b" [none, some (Val.vInt 5), some (Val.vInt 6)]).get? i =
          some (some (Val.vStr ""))) :=
  ⟨⟨by decide, by decide, by decide⟩,
   c10_fill_default_empty_string nhPolicy nhCols "b"
     [none, some (Val.vInt 5), some (Val.vInt 6)] (by decide) (by decide) (by decide)⟩

end Text2Sql
